import Mathlib

/-!
Verification development for the training driver `src/train.py` of the
hfsoftmax repository.

The driver's control flow is shallow-embedded as pure functions over explicit
state.  Learning rates and accuracy values (floats in the source) are modelled
as rationals; the file system is a partial map from paths to checkpoint
records; the per-epoch validation accuracy is an oracle `prec : Nat → ℚ`
abstracting the model and the data.  Model/optimizer tensors are abstracted
away: only the fields that the verified claims mention (epoch, arch,
best_prec1, the optimizer's learning rate) are kept.

Functions named after source symbols are transcriptions of `src/train.py`;
definitions whose doc comment starts with "Modelled from the spec:" stand for
repository code that is not under `src/` (utils.py: AverageMeter, accuracy,
save_ckpt) or describe the specified schedule, and follow the spec's words.
-/

namespace HFSoftmax

/-- Run configuration: the argparse `args` record of src/train.py
(lines 26-81), restricted to the fields the claims depend on.
`rank` is set at lines 94/97 (0 when not distributed). -/
structure Args where
  arch : String
  epochs : Nat
  startEpoch : Nat
  lr : ℚ
  lrSteps : List Nat
  gamma : ℚ
  numClasses : Nat
  sampleNum : Nat
  printFreq : Nat
  resume : String
  savePath : String
  evaluate : Bool
  sampled : Bool
  distributed : Bool
  rank : Nat
  deriving DecidableEq

/-- The persisted checkpoint bundle (src/train.py lines 202-208): epoch
count, architecture id, best validation score.  The model and optimizer
state dicts are abstracted away. -/
structure Ckpt where
  epoch : Nat
  arch : String
  best_prec1 : ℚ
  deriving DecidableEq

/-- Python `max(l)` over a list of naturals: errors (returns `none`) on an
empty list, mirroring `max(args.lr_steps)` at src/train.py line 185. -/
def listMax (l : List Nat) : Option Nat :=
  match l with
  | [] => none
  | x :: xs => some (xs.foldl Nat.max x)

/-- The resume block of src/train.py lines 133-144.  Given the `--resume`
path, the current `args.start_epoch` and the global `best_prec1`, and the
file system `fs`, returns the resulting (start_epoch, best_prec1, warned):
an existing checkpoint overwrites both values; a missing file prints a
warning and leaves both unchanged; an empty path (argparse default, falsy)
skips the block entirely. -/
def resumeLoad (resume : String) (startEpoch0 : Nat) (best0 : ℚ)
    (fs : String → Option Ckpt) : Nat × ℚ × Bool :=
  if resume = "" then (startEpoch0, best0, false)
  else
    match fs resume with
    | some ck => (ck.epoch, ck.best_prec1, false)
    | none => (startEpoch0, best0, true)

/-- Modelled from the spec: `save_ckpt(state, path, epoch, is_best)` of
utils.py (not under src/), per spec 4.4 — serializes `state` to a file
derived from path and epoch, and when `is_best` additionally (over)writes a
separate best-marker file with the same content.  We record the write as an
event carrying the saved state and the flag. -/
structure SaveEvent where
  state : Ckpt
  epoch : Nat
  isBest : Bool
  deriving DecidableEq

/-- State threaded through the epoch loop of src/train.py lines 188-208:
the optimizer's learning rate, the global `best_prec1`, the list of trained
epochs with the learning rate the optimizer held during each, the number of
validation passes run, and the sequence of checkpoint saves. -/
structure LoopState where
  lr : ℚ
  best : ℚ
  trained : List (Nat × ℚ)
  valCount : Nat
  saves : List SaveEvent
  deriving DecidableEq

/-- One iteration of the epoch loop (src/train.py lines 188-208): train for
one epoch (using the optimizer's current learning rate — no scheduler step
occurs anywhere in the loop body), validate, and on rank 0 compare against
the best score, update it, and save a checkpoint flagged `is_best` when the
new accuracy strictly exceeds the old best (lines 199-208). -/
def epochStep (a : Args) (prec : Nat → ℚ) (st : LoopState) (epoch : Nat) :
    LoopState :=
  let st1 : LoopState :=
    { st with
      trained := st.trained ++ [(epoch, st.lr)]
      valCount := st.valCount + 1 }
  let p := prec epoch
  if a.rank = 0 then
    let isBest : Bool := decide (st1.best < p)
    let newBest := max p st1.best
    { st1 with
      best := newBest
      saves := st1.saves ++ [⟨⟨epoch + 1, a.arch, newBest⟩, epoch + 1, isBest⟩] }
  else st1

/-- The epoch loop `for epoch in range(start_epoch, args.epochs)` of
src/train.py line 188, as a left fold of `epochStep` over the epoch range. -/
def runEpochs (a : Args) (prec : Nat → ℚ) (st : LoopState)
    (start len : Nat) : LoopState :=
  (List.range' start len).foldl (epochStep a prec) st

/-- Observable outcome of a completed run. -/
structure Trace where
  trained : List (Nat × ℚ)
  valCount : Nat
  saves : List SaveEvent
  warnedMissingCkpt : Bool
  deriving DecidableEq

/-- The `main` function of src/train.py (lines 86-208), restricted to its
control flow: the sampled-head assertion (lines 108-109), the resume block
(lines 133-144), the evaluate-only early return (lines 181-183), the
lr-steps assertion (line 185), and the epoch loop (lines 188-208).  The
MultiStepLR scheduler constructed at line 186 is never stepped, so it has
no observable effect and does not appear.  Fatal assertion failures are
`.error`. -/
def mainRun (a : Args) (fs : String → Option Ckpt) (prec : Nat → ℚ) :
    Except String Trace :=
  if a.sampled = true ∧ ¬ a.sampleNum ≤ a.numClasses then
    .error "assert args.sample_num <= args.num_classes"
  else
    let r := resumeLoad a.resume a.startEpoch 0 fs
    if a.evaluate then
      .ok { trained := [], valCount := 1, saves := [], warnedMissingCkpt := r.2.2 }
    else
      match listMax a.lrSteps with
      | none => .error "max() arg is an empty sequence"
      | some m =>
        if m < a.epochs then
          let final := runEpochs a prec
            { lr := a.lr, best := r.2.1, trained := [], valCount := 0, saves := [] }
            r.1 (a.epochs - r.1)
          .ok { trained := final.trained, valCount := final.valCount,
                saves := final.saves, warnedMissingCkpt := r.2.2 }
        else .error "assert max args.lr_steps < args.epochs"

/-- Modelled from the spec: the learning-rate step schedule of spec 4.7 —
"the optimizer's learning rate is multiplied by the decay factor once
training reaches each listed epoch, cumulatively".  At epoch `e` the rate is
the initial rate times gamma to the number of listed epochs already
reached. -/
def scheduledLR (lr0 gamma : ℚ) (steps : List Nat) (epoch : Nat) : ℚ :=
  lr0 * gamma ^ (steps.filter (fun s => decide (s ≤ epoch))).length

/-- The best-marker file contents written during a run: states of the saves
flagged `is_best` (spec-modelled save_ckpt writes the best-marker file
exactly for those). -/
def bestWrites (st : LoopState) : List Ckpt :=
  (st.saves.filter (fun s => s.isBest)).map SaveEvent.state

/-- Running maximum of validation accuracies over a list of epochs, seeded
with the initial best score. -/
def runningBest (best0 : ℚ) (prec : Nat → ℚ) (es : List Nat) : ℚ :=
  es.foldl (fun b e => max (prec e) b) best0

/-- One log event emitted by the loops of src/train.py. -/
inductive LogEvent where
  | trainProgress : Nat → Nat → LogEvent
  | valProgress : Nat → LogEvent
  | valSummary : LogEvent
  deriving DecidableEq

/-- Progress lines printed by `train` (src/train.py lines 249-256): at
iteration `i` a line is printed iff `i % print_freq == 0 and rank == 0`. -/
def trainLogs (rank printFreq epoch n : Nat) : List LogEvent :=
  (List.range n).filterMap fun i =>
    if i % printFreq = 0 ∧ rank = 0 then some (.trainProgress epoch i)
    else none

/-- Lines printed by `validate` (src/train.py lines 284-292): per-iteration
progress lines gated by `i % print_freq == 0 and rank == 0`, followed by the
final summary line at line 292, which is printed unconditionally — on every
rank. -/
def validateLogs (rank printFreq n : Nat) : List LogEvent :=
  ((List.range n).filterMap fun i =>
    if i % printFreq = 0 ∧ rank = 0 then some (.valProgress i)
    else none)
  ++ [LogEvent.valSummary]

/-- A model as seen by the loops: `forward input` in dense mode, and in
sampled mode `forwardSampled input target` returning logits over the class
subset together with the remapped targets (spec 4.2, HFClassifier). -/
structure Model (I T O : Type) where
  forward : I → O
  forwardSampled : I → T → O × T

/-- The output/target selection of src/train.py lines 229-233 (train) and
271-275 (validate), which are identical: in sampled mode the forward call
returns both the output and a replacement target; otherwise the original
target is kept. -/
def computeOutputTarget {I T O : Type} (sampled : Bool) (m : Model I T O)
    (input : I) (target : T) : O × T :=
  if sampled then m.forwardSampled input target
  else (m.forward input, target)

/-- The loss computation `loss = criterion(output, target)` of src/train.py
lines 233/275, applied to the selected output/target pair. -/
def batchLoss {I T O L : Type} (sampled : Bool) (m : Model I T O)
    (criterion : O → T → L) (input : I) (target : T) : L :=
  let ot := computeOutputTarget sampled m input target
  criterion ot.1 ot.2

/-- Modelled from the spec: utils.AverageMeter (not under src/).  Spec 3:
"maintains a bounded sliding window of the most recent N observations plus
a running global average"; spec 8: the windowed average is the mean of the
last min(N,W) values and the global average is the mean of all values seen.
`avg` here denotes the running global average. -/
structure AverageMeter where
  length : Nat
  history : List ℚ
  count : Nat
  total : ℚ
  val : ℚ

/-- A fresh meter with window size `length` (`AverageMeter(10)` at
src/train.py lines 260-262). -/
def AverageMeter.fresh (length : Nat) : AverageMeter :=
  ⟨length, [], 0, 0, 0⟩

/-- Modelled from the spec: recording one observation keeps the most recent
`length` values in the window and accumulates the global count and total. -/
def AverageMeter.update (m : AverageMeter) (v : ℚ) : AverageMeter :=
  let h := m.history ++ [v]
  let h := if m.length < h.length then h.drop (h.length - m.length) else h
  { m with history := h, count := m.count + 1, total := m.total + v, val := v }

/-- Modelled from the spec: the running global average — the mean of all
values recorded so far (0 before any observation). -/
def AverageMeter.avg (m : AverageMeter) : ℚ :=
  if m.count = 0 then 0 else m.total / m.count

/-- Modelled from the spec: utils.accuracy (not under src/) — the top-1
accuracy of one minibatch as a percentage, for a batch in which `correct`
of `size` samples have their label as the argmax prediction. -/
def batchAccuracy (correct size : Nat) : ℚ :=
  100 * (correct : ℚ) / (size : ℚ)

/-- The accuracy aggregation of `validate` (src/train.py lines 259-294): a
batch is abstracted as its (correct, size) counts; each batch's top-1
percentage is recorded in the `top1` meter (`top1.update(prec1[0])`, line
279 — unweighted) and the meter's average is returned (line 294). -/
def validateTop1 (batches : List (Nat × Nat)) : ℚ :=
  (batches.foldl (fun m b => m.update (batchAccuracy b.1 b.2))
    (AverageMeter.fresh 10)).avg

/-- Mean top-1 accuracy over the full validation set: total correct over
total samples, as a percentage. -/
def fullSetAccuracy (batches : List (Nat × Nat)) : ℚ :=
  100 * (((batches.map Prod.fst).sum : Nat) : ℚ)
    / (((batches.map Prod.snd).sum : Nat) : ℚ)

/-! Concrete configurations used to evaluate the code at specific inputs. -/

/-- A run with lr 1, gamma 1/10 and a decay scheduled at epoch 1 out of 3
epochs: the configuration on which the learning-rate claim is checked. -/
def c1Args : Args :=
  { arch := "resnet50", epochs := 3, startEpoch := 0, lr := 1, lrSteps := [1],
    gamma := 1/10, numClasses := 1000, sampleNum := 1000, printFreq := 10,
    resume := "", savePath := "ckpt", evaluate := false, sampled := false,
    distributed := false, rank := 0 }

/-- C1: the code never steps the MultiStepLR scheduler it constructs
(src/train.py line 186; no scheduler step appears in the loop of lines
188-208), so the optimizer's learning rate is invariant under every epoch
step; on the concrete run `c1Args` the rate actually used at epochs 1 and 2
is still 1, whereas the specified schedule prescribes 1/10 from epoch 1 on. -/
theorem lr_never_decays_despite_schedule :
    (∀ (a : Args) (prec : Nat → ℚ) (st : LoopState) (e : Nat),
        (epochStep a prec st e).lr = st.lr)
    ∧ (mainRun c1Args (fun _ => none) (fun _ => 0)).toOption.map Trace.trained
        = some [(0, (1 : ℚ)), (1, 1), (2, 1)]
    ∧ scheduledLR c1Args.lr c1Args.gamma c1Args.lrSteps 1 = 1/10
    ∧ ((1 : ℚ) ≠ 1/10) := by
  refine ⟨?_, by decide, ?_, by norm_num⟩
  · intro a prec st e
    unfold epochStep
    by_cases h : a.rank = 0 <;> simp [h]
  · norm_num [scheduledLR, c1Args]

/-- An evaluate-only configuration. -/
def c6Args : Args :=
  { arch := "resnet50", epochs := 3, startEpoch := 0, lr := 1/100,
    lrSteps := [5], gamma := 1/10, numClasses := 1000, sampleNum := 1000,
    printFreq := 10, resume := "", savePath := "ckpt", evaluate := true,
    sampled := false, distributed := false, rank := 0 }

/-- C6: with the evaluate flag set (and the sampled-head assertion passing,
so startup does not abort), main runs exactly one validation pass and
returns: no epoch is trained and no checkpoint is saved
(src/train.py lines 181-183). -/
theorem evaluate_only_no_side_effects (a : Args) (fs : String → Option Ckpt)
    (prec : Nat → ℚ) (he : a.evaluate = true)
    (hs : a.sampled = true → a.sampleNum ≤ a.numClasses) :
    mainRun a fs prec =
      .ok { trained := [], valCount := 1, saves := [],
            warnedMissingCkpt := (resumeLoad a.resume a.startEpoch 0 fs).2.2 } := by
  have hc : ¬ (a.sampled = true ∧ ¬ a.sampleNum ≤ a.numClasses) := by
    rintro ⟨h1, h2⟩
    exact h2 (hs h1)
  simp [mainRun, hc, he]
  exact hs

/-- C6 witness: the theorem applied to the concrete configuration. -/
theorem evaluate_only_no_side_effects_witness :
    mainRun c6Args (fun _ => none) (fun _ => 0) =
      .ok { trained := [], valCount := 1, saves := [],
            warnedMissingCkpt := false } :=
  evaluate_only_no_side_effects c6Args (fun _ => none) (fun _ => 0) rfl
    (by decide)

/-- A configuration whose resume path holds a checkpoint with a completed
epoch count past the epoch budget. -/
def c10Args : Args :=
  { arch := "resnet50", epochs := 2, startEpoch := 0, lr := 1/100,
    lrSteps := [1], gamma := 1/10, numClasses := 1000, sampleNum := 1000,
    printFreq := 10, resume := "ckpt.pth.tar", savePath := "ckpt",
    evaluate := false, sampled := false, distributed := false, rank := 0 }

/-- The file system for the C10 witness: the resume path holds a checkpoint
recording 5 completed epochs. -/
def c10Fs : String → Option Ckpt := fun p =>
  if p = "ckpt.pth.tar" then some ⟨5, "resnet50", 7⟩ else none

/-- C10: when the effective start epoch (after the resume block) is at
least the configured epoch count and the startup checks pass, the epoch
loop body runs zero times: nothing is trained, no validation pass runs, no
checkpoint is saved, and the run completes normally (src/train.py
line 188: range(start_epoch, epochs) is empty). -/
theorem empty_epoch_range_no_work (a : Args) (fs : String → Option Ckpt)
    (prec : Nat → ℚ) (m : Nat)
    (he : a.evaluate = false)
    (hs : a.sampled = true → a.sampleNum ≤ a.numClasses)
    (hm : listMax a.lrSteps = some m) (hlt : m < a.epochs)
    (hstart : a.epochs ≤ (resumeLoad a.resume a.startEpoch 0 fs).1) :
    mainRun a fs prec =
      .ok { trained := [], valCount := 0, saves := [],
            warnedMissingCkpt := (resumeLoad a.resume a.startEpoch 0 fs).2.2 } := by
  have hc : ¬ (a.sampled = true ∧ ¬ a.sampleNum ≤ a.numClasses) := by
    rintro ⟨h1, h2⟩
    exact h2 (hs h1)
  have hlen : a.epochs - (resumeLoad a.resume a.startEpoch 0 fs).1 = 0 :=
    Nat.sub_eq_zero_of_le hstart
  simp [mainRun, hc, he, hm, hlt, runEpochs, hlen, List.range']
  exact hs

/-- C10 witness: resuming `c10Fs`'s checkpoint (epoch 5) against an epoch
budget of 2 does no work and completes normally. -/
theorem empty_epoch_range_no_work_witness :
    mainRun c10Args c10Fs (fun _ => 0) =
      .ok { trained := [], valCount := 0, saves := [],
            warnedMissingCkpt := false } :=
  empty_epoch_range_no_work c10Args c10Fs (fun _ => 0) 1 rfl (by decide) rfl
    (by decide) (by decide)

/-- C8: the loss is computed on the pair selected at src/train.py lines
229-233 and 271-275: under sampled mode the criterion receives the logits
and the remapped targets returned by the forward call; otherwise it
receives the plain forward output and the original targets. -/
theorem sampled_target_flow {I T O L : Type} (m : Model I T O)
    (criterion : O → T → L) (input : I) (target : T) :
    batchLoss true m criterion input target
        = criterion (m.forwardSampled input target).1
            (m.forwardSampled input target).2
    ∧ batchLoss false m criterion input target
        = criterion (m.forward input) target :=
  ⟨rfl, rfl⟩

/-- C7 counterexample: a rank-1 process running one validation batch does
emit a log line — the unconditional summary print at src/train.py line 292
is outside the rank gate. -/
theorem nonzero_rank_logs_counterexample :
    (1 : Nat) ≠ 0 ∧ validateLogs 1 10 1 = [LogEvent.valSummary] := by decide

/-- C7 amended: a process of non-zero rank emits no per-iteration progress
line in either loop and never saves a checkpoint, but it does emit the
end-of-validation summary line. -/
theorem nonzero_rank_no_progress_no_ckpt (a : Args) (prec : Nat → ℚ)
    (st : LoopState) (e rank pf ep n : Nat)
    (hr : rank ≠ 0) (ha : a.rank ≠ 0) :
    trainLogs rank pf ep n = []
    ∧ validateLogs rank pf n = [LogEvent.valSummary]
    ∧ (epochStep a prec st e).saves = st.saves := by
  refine ⟨?_, ?_, ?_⟩
  · simp [trainLogs, hr]
  · simp [validateLogs, hr]
  · unfold epochStep
    simp [ha]

/-- A distributed configuration seen from the rank-1 process. -/
def c7Args : Args :=
  { arch := "resnet50", epochs := 3, startEpoch := 0, lr := 1/100,
    lrSteps := [1], gamma := 1/10, numClasses := 1000, sampleNum := 1000,
    printFreq := 10, resume := "", savePath := "ckpt", evaluate := false,
    sampled := false, distributed := true, rank := 1 }

/-- C7 amended witness: the amended statement at rank 1. -/
theorem nonzero_rank_no_progress_no_ckpt_witness :
    trainLogs 1 10 0 3 = []
    ∧ validateLogs 1 10 3 = [LogEvent.valSummary]
    ∧ (epochStep c7Args (fun _ => 0) ⟨1, 0, [], 0, []⟩ 0).saves = [] :=
  nonzero_rank_no_progress_no_ckpt c7Args (fun _ => 0) ⟨1, 0, [], 0, []⟩
    0 1 10 0 3 (by decide) (by decide)

/-- Helper: Python max over a list errors exactly on the empty list. -/
theorem listMax_eq_none_iff (l : List Nat) : listMax l = none ↔ l = [] := by
  cases l <;> simp [listMax]

/-- A non-sampled configuration whose sample-num exceeds its class count. -/
def c2aArgs : Args :=
  { arch := "resnet50", epochs := 1, startEpoch := 0, lr := 1/100,
    lrSteps := [0], gamma := 1/10, numClasses := 3, sampleNum := 5,
    printFreq := 10, resume := "", savePath := "ckpt", evaluate := false,
    sampled := false, distributed := false, rank := 0 }

/-- An evaluate-only configuration whose lr-steps maximum reaches past the
epoch budget. -/
def c2bArgs : Args :=
  { arch := "resnet50", epochs := 1, startEpoch := 0, lr := 1/100,
    lrSteps := [5], gamma := 1/10, numClasses := 1000, sampleNum := 1000,
    printFreq := 10, resume := "", savePath := "ckpt", evaluate := true,
    sampled := false, distributed := false, rank := 0 }

/-- C2 counterexample: startup does not fail on every configuration with
sample-num greater than num-classes — the assertion at src/train.py line
109 only runs under the sampled flag (line 108), so `c2aArgs` completes
normally; likewise the lr-steps assertion at line 185 is skipped in
evaluate mode (early return at line 183), so `c2bArgs` completes normally
although max(lr-steps) exceeds its epoch budget. -/
theorem startup_checks_counterexample :
    c2aArgs.numClasses < c2aArgs.sampleNum
    ∧ (mainRun c2aArgs (fun _ => none) (fun _ => 0)).toOption.isSome = true
    ∧ listMax c2bArgs.lrSteps = some 5
    ∧ c2bArgs.epochs ≤ 5
    ∧ (mainRun c2bArgs (fun _ => none) (fun _ => 0)).toOption.isSome = true := by
  decide

/-- C2 amended: startup aborts exactly when the sampled flag is set and
sample-num exceeds num-classes, or when evaluate mode is off and the
lr-steps list is empty (Python max error) or has a maximum at or past the
epoch budget; every other configuration passes both checks. -/
theorem startup_checks_characterization (a : Args) (fs : String → Option Ckpt)
    (prec : Nat → ℚ) :
    (mainRun a fs prec).toOption = none ↔
      (a.sampled = true ∧ a.numClasses < a.sampleNum)
      ∨ (a.evaluate = false
          ∧ (a.lrSteps = [] ∨ ∃ m, listMax a.lrSteps = some m ∧ a.epochs ≤ m)) := by
  unfold mainRun
  by_cases h1 : a.sampled = true ∧ ¬ a.sampleNum ≤ a.numClasses
  · rw [if_pos h1]
    simp only [Except.toOption, true_iff]
    exact Or.inl ⟨h1.1, Nat.not_le.mp h1.2⟩
  · rw [if_neg h1]
    have h1' : ¬ (a.sampled = true ∧ a.numClasses < a.sampleNum) := fun hx =>
      h1 ⟨hx.1, Nat.not_le.mpr hx.2⟩
    by_cases he : a.evaluate = true
    · simp [he, h1', Except.toOption]
    · have he' : a.evaluate = false := by
        revert he
        cases a.evaluate <;> simp
      cases hm : listMax a.lrSteps with
      | none =>
        have hnil : a.lrSteps = [] := (listMax_eq_none_iff a.lrSteps).mp hm
        simp [he', hm, hnil, h1', Except.toOption]
      | some m =>
        have hne : a.lrSteps ≠ [] := by
          intro hl
          rw [(listMax_eq_none_iff a.lrSteps).mpr hl] at hm
          exact Option.noConfusion hm
        by_cases hlt : m < a.epochs
        · simp [he', hm, hlt, h1', hne, Except.toOption]
        · simp [he', hm, hlt, h1', hne, Except.toOption]
          omega

/-- C3: a non-empty resume path pointing at an existing checkpoint restores
start-epoch and best-prec1 exactly as stored; pointing at a missing file
leaves both at their defaults (0, 0) and sets the warning flag; and whether
the resume file exists never decides whether the run completes normally
(src/train.py lines 133-144). -/
theorem resume_restores_or_defaults (path : String) (fs : String → Option Ckpt)
    (ck : Ckpt) (hne : path ≠ "") :
    (fs path = some ck →
        resumeLoad path 0 0 fs = (ck.epoch, ck.best_prec1, false))
    ∧ (fs path = none → resumeLoad path 0 0 fs = (0, 0, true))
    ∧ (∀ (a : Args) (prec : Nat → ℚ) (fs2 : String → Option Ckpt),
        (mainRun a fs prec).toOption.isSome
          = (mainRun a fs2 prec).toOption.isSome) := by
  refine ⟨?_, ?_, ?_⟩
  · intro h
    simp [resumeLoad, hne, h]
  · intro h
    simp [resumeLoad, hne, h]
  · intro a prec fs2
    unfold mainRun
    by_cases h1 : a.sampled = true ∧ ¬ a.sampleNum ≤ a.numClasses
    · rw [if_pos h1, if_pos h1]
    · rw [if_neg h1, if_neg h1]
      by_cases he : a.evaluate = true
      · simp [he, Except.toOption]
      · have he' : a.evaluate = false := by
          revert he
          cases a.evaluate <;> simp
        cases hm : listMax a.lrSteps with
        | none => simp [he', hm]
        | some m =>
          by_cases hlt : m < a.epochs <;> simp [he', hm, hlt, Except.toOption]

/-- The file system for the C3 witness: one stored checkpoint. -/
def c3Fs : String → Option Ckpt := fun p =>
  if p = "resume.pth.tar" then some ⟨3, "resnet50", 7⟩ else none

/-- C3 witness: restoring from `c3Fs` yields the stored (3, 7); resuming
the same path on an empty file system stays at (0, 0) with the warning. -/
theorem resume_restores_or_defaults_witness :
    resumeLoad "resume.pth.tar" 0 0 c3Fs = (3, 7, false)
    ∧ resumeLoad "resume.pth.tar" 0 0 (fun _ => none) = (0, 0, true) :=
  ⟨(resume_restores_or_defaults "resume.pth.tar" c3Fs ⟨3, "resnet50", 7⟩
      (by decide)).1 (by decide),
    (resume_restores_or_defaults "resume.pth.tar" (fun _ => none)
      ⟨3, "resnet50", 7⟩ (by decide)).2.1 rfl⟩

/-- A plain rank-0 configuration for the best-marker claims. -/
def c4Args : Args :=
  { arch := "resnet50", epochs := 3, startEpoch := 0, lr := 1/100,
    lrSteps := [1], gamma := 1/10, numClasses := 1000, sampleNum := 1000,
    printFreq := 10, resume := "", savePath := "ckpt", evaluate := false,
    sampled := false, distributed := false, rank := 0 }

/-- C4: on the writing rank, an epoch's step changes the set of best-marker
writes iff the epoch's validation accuracy strictly exceeds the previous
best; a tie writes nothing; and a strict improvement appends exactly one
best-marker write embedding the new accuracy (src/train.py lines 199-208,
spec-modelled save_ckpt). -/
theorem best_marker_write_iff (a : Args) (prec : Nat → ℚ) (st : LoopState)
    (e : Nat) (hr : a.rank = 0) :
    (bestWrites (epochStep a prec st e) ≠ bestWrites st ↔ st.best < prec e)
    ∧ (prec e = st.best → bestWrites (epochStep a prec st e) = bestWrites st)
    ∧ (st.best < prec e →
        bestWrites (epochStep a prec st e)
          = bestWrites st ++ [⟨e + 1, a.arch, prec e⟩]) := by
  by_cases hb : st.best < prec e
  · have hmax : max (prec e) st.best = prec e := max_eq_left (le_of_lt hb)
    have hw : bestWrites (epochStep a prec st e)
        = bestWrites st ++ [⟨e + 1, a.arch, prec e⟩] := by
      unfold epochStep bestWrites
      simp [hr, hb, hmax]
    refine ⟨?_, ?_, fun _ => hw⟩
    · simp only [hw, ne_eq]
      constructor
      · intro _
        exact hb
      · intro _ hx
        have := congrArg List.length hx
        simp at this
    · intro hpe
      rw [hpe] at hb
      exact absurd hb (lt_irrefl _)
  · have hw : bestWrites (epochStep a prec st e) = bestWrites st := by
      unfold epochStep bestWrites
      simp [hr, hb]
    exact ⟨by simp [hw, hb], fun _ => hw, fun hx => absurd hx hb⟩

/-- C4 witness: from a best score of 50, an epoch scoring 60 appends a
best-marker write with score 60; the iff and the tie clause instantiated. -/
theorem best_marker_write_iff_witness :
    (bestWrites (epochStep c4Args (fun _ => 60) ⟨1, 50, [], 0, []⟩ 0)
        ≠ bestWrites ⟨1, 50, [], 0, []⟩ ↔ (50 : ℚ) < 60)
    ∧ ((60 : ℚ) = 50 →
        bestWrites (epochStep c4Args (fun _ => 60) ⟨1, 50, [], 0, []⟩ 0)
          = bestWrites ⟨1, 50, [], 0, []⟩)
    ∧ ((50 : ℚ) < 60 →
        bestWrites (epochStep c4Args (fun _ => 60) ⟨1, 50, [], 0, []⟩ 0)
          = bestWrites ⟨1, 50, [], 0, []⟩ ++ [⟨1, "resnet50", 60⟩]) :=
  best_marker_write_iff c4Args (fun _ => 60) ⟨1, 50, [], 0, []⟩ 0 rfl

/-- Helper: the epoch loop over one more epoch is the loop followed by one
step at the final epoch. -/
theorem runEpochs_succ (a : Args) (prec : Nat → ℚ) (st : LoopState)
    (start len : Nat) :
    runEpochs a prec st start (len + 1)
      = epochStep a prec (runEpochs a prec st start len) (start + len) := by
  unfold runEpochs
  rw [List.range'_1_concat, List.foldl_append]
  rfl

/-- Helper: on the writing rank one epoch step updates the best score to
the maximum of the epoch's accuracy and the previous best. -/
theorem epochStep_best (a : Args) (prec : Nat → ℚ) (st : LoopState) (e : Nat)
    (hr : a.rank = 0) :
    (epochStep a prec st e).best = max (prec e) st.best := by
  unfold epochStep
  simp [hr]

/-- Helper: on the writing rank one epoch step appends exactly one save
event carrying the updated best score. -/
theorem epochStep_saves (a : Args) (prec : Nat → ℚ) (st : LoopState) (e : Nat)
    (hr : a.rank = 0) :
    (epochStep a prec st e).saves
      = st.saves ++ [⟨⟨e + 1, a.arch, max (prec e) st.best⟩, e + 1,
          decide (st.best < prec e)⟩] := by
  unfold epochStep
  simp [hr]

/-- Helper: the running best over one more epoch. -/
theorem runningBest_concat (best0 : ℚ) (prec : Nat → ℚ) (es : List Nat)
    (e : Nat) :
    runningBest best0 prec (es ++ [e]) = max (prec e) (runningBest best0 prec es) := by
  unfold runningBest
  rw [List.foldl_append]
  rfl

/-- Helper: the loop's best score is the running maximum of the observed
accuracies over the trained epoch range, seeded with the initial best. -/
theorem runEpochs_best (a : Args) (prec : Nat → ℚ) (st : LoopState)
    (start len : Nat) (hr : a.rank = 0) :
    (runEpochs a prec st start len).best
      = runningBest st.best prec (List.range' start len) := by
  induction len with
  | zero => rfl
  | succ n ih =>
    rw [runEpochs_succ, epochStep_best a prec _ _ hr, ih,
      List.range'_1_concat, runningBest_concat]

/-- C5: over a run from a fresh loop state, every best-marker write embeds
a best score equal to the maximum validation accuracy observed over the
epochs up to and including the epoch it was written for, seeded with the
initial best (the resumed score or 0) — src/train.py lines 199-208, with
the spec-modelled save_ckpt. -/
theorem best_marker_embeds_running_max (a : Args) (prec : Nat → ℚ)
    (lr best0 : ℚ) (start len : Nat) (hr : a.rank = 0) :
    ∀ s ∈ bestWrites (runEpochs a prec ⟨lr, best0, [], 0, []⟩ start len),
      s.best_prec1 = runningBest best0 prec (List.range' start (s.epoch - start)) := by
  induction len with
  | zero =>
    intro s hs
    simp [runEpochs, bestWrites] at hs
  | succ n ih =>
    intro s hs
    rw [runEpochs_succ] at hs
    unfold bestWrites at hs
    rw [epochStep_saves a prec _ _ hr, List.filter_append, List.map_append] at hs
    rcases List.mem_append.mp hs with h | h
    · exact ih s h
    · by_cases hb :
        (runEpochs a prec ⟨lr, best0, [], 0, []⟩ start n).best < prec (start + n)
      · have hsv : s = ⟨start + n + 1, a.arch,
            max (prec (start + n))
              (runEpochs a prec ⟨lr, best0, [], 0, []⟩ start n).best⟩ := by
          simp [hb] at h
          exact h
        have hep : s.epoch - start = n + 1 := by
          rw [hsv]
          show start + n + 1 - start = n + 1
          omega
        rw [hep, hsv, List.range'_1_concat, runningBest_concat,
          runEpochs_best a prec _ _ _ hr]
      · simp [hb] at h

/-- The accuracy oracle for the C5 witness: 1 at epoch 0, then 2. -/
def c5prec : Nat → ℚ := fun e => if e = 0 then 1 else 2

/-- A rank-0 configuration for the C5 witness. -/
def c5Args : Args :=
  { arch := "resnet50", epochs := 2, startEpoch := 0, lr := 1,
    lrSteps := [1], gamma := 1/10, numClasses := 1000, sampleNum := 1000,
    printFreq := 10, resume := "", savePath := "ckpt", evaluate := false,
    sampled := false, distributed := false, rank := 0 }

/-- C5 witness: in the two-epoch run under `c5prec`, the best-marker write
of epoch 1 embeds score 2, the running maximum of the observed accuracies. -/
theorem best_marker_embeds_running_max_witness :
    Ckpt.best_prec1 ⟨2, "resnet50", 2⟩
      = runningBest 0 c5prec
          (List.range' 0 (Ckpt.epoch ⟨2, "resnet50", 2⟩ - 0)) :=
  best_marker_embeds_running_max c5Args c5prec 1 0 0 2 rfl
    ⟨2, "resnet50", 2⟩ (by decide)

/-- Helper: folding meter updates over a batch list adds the batch count to
the meter's count and the mapped values to its total. -/
theorem foldl_update_stats (f : Nat × Nat → ℚ) (l : List (Nat × Nat))
    (m : AverageMeter) :
    (l.foldl (fun m b => m.update (f b)) m).count = m.count + l.length
    ∧ (l.foldl (fun m b => m.update (f b)) m).total = m.total + (l.map f).sum := by
  induction l generalizing m with
  | nil => simp
  | cons b t ih =>
    simp only [List.foldl_cons, List.map_cons, List.sum_cons, List.length_cons]
    constructor
    · rw [(ih _).1]
      simp [AverageMeter.update]
      omega
    · rw [(ih _).2]
      simp [AverageMeter.update]
      ring

/-- Helper: the scalar returned by validate is the unweighted arithmetic
mean of the per-batch accuracies (0 for an empty loader). -/
theorem validateTop1_eq_mean (batches : List (Nat × Nat)) :
    validateTop1 batches
      = ((batches.map fun b => batchAccuracy b.1 b.2).sum)
          / (batches.length : ℚ) := by
  unfold validateTop1 AverageMeter.avg
  have h := foldl_update_stats (fun b => batchAccuracy b.1 b.2) batches
    (AverageMeter.fresh 10)
  rw [h.1, h.2]
  simp only [AverageMeter.fresh, Nat.zero_add, zero_add]
  by_cases hl : batches.length = 0
  · rw [List.length_eq_zero.mp hl]
    simp
  · simp [hl]

/-- Helper: when every batch has size s, the sizes sum to (number of
batches) times s. -/
theorem sum_snd_const (l : List (Nat × Nat)) (s : Nat) (h : ∀ b ∈ l, b.2 = s) :
    (l.map Prod.snd).sum = l.length * s := by
  induction l with
  | nil => simp
  | cons b t ih =>
    simp only [List.map_cons, List.sum_cons, List.length_cons]
    rw [h b (List.mem_cons_self _ _),
      ih (fun x hx => h x (List.mem_cons_of_mem _ hx))]
    ring

/-- Helper: when every batch has size s, the per-batch accuracies sum to
100 times the total correct count over s. -/
theorem sum_acc_const (l : List (Nat × Nat)) (s : Nat) (h : ∀ b ∈ l, b.2 = s) :
    (l.map fun b => batchAccuracy b.1 b.2).sum
      = 100 * (((l.map Prod.fst).sum : Nat) : ℚ) / (s : ℚ) := by
  induction l with
  | nil => simp
  | cons b t ih =>
    simp only [List.map_cons, List.sum_cons]
    rw [h b (List.mem_cons_self _ _),
      ih (fun x hx => h x (List.mem_cons_of_mem _ hx))]
    unfold batchAccuracy
    push_cast
    ring

/-- C9 counterexample: on a validation set of 3 samples split into batches
of sizes 2 and 1 (0 of 2 correct, then 1 of 1 correct), validate returns
50 — the unweighted mean of the batch accuracies — while the mean top-1
accuracy over the full validation set is 100/3. -/
theorem validate_mean_counterexample :
    validateTop1 [(0, 2), (1, 1)] = 50
    ∧ fullSetAccuracy [(0, 2), (1, 1)] = 100/3
    ∧ ((50 : ℚ) ≠ 100/3) := by
  refine ⟨?_, ?_, by norm_num⟩
  · norm_num [validateTop1, AverageMeter.fresh, AverageMeter.update,
      AverageMeter.avg, batchAccuracy]
  · norm_num [fullSetAccuracy]

/-- C9 amended: validate returns the unweighted arithmetic mean of the
per-batch top-1 accuracies; when every batch has the same (positive) size
this equals the mean top-1 accuracy over the full validation set. -/
theorem validate_returns_batch_mean (batches : List (Nat × Nat)) (s : Nat)
    (hne : batches ≠ []) (hs : 0 < s) (hsz : ∀ b ∈ batches, b.2 = s) :
    validateTop1 batches
      = ((batches.map fun b => batchAccuracy b.1 b.2).sum)
          / (batches.length : ℚ)
    ∧ validateTop1 batches = fullSetAccuracy batches := by
  refine ⟨validateTop1_eq_mean batches, ?_⟩
  rw [validateTop1_eq_mean batches]
  unfold fullSetAccuracy
  rw [sum_acc_const batches s hsz, sum_snd_const batches s hsz]
  have hs0 : (s : ℚ) ≠ 0 := Nat.cast_ne_zero.mpr (Nat.pos_iff_ne_zero.mp hs)
  have hl0 : (batches.length : ℚ) ≠ 0 :=
    Nat.cast_ne_zero.mpr (fun hz => hne (List.length_eq_zero.mp hz))
  push_cast
  field_simp
  exact Or.inl (mul_comm _ _)

/-- C9 amended witness: two equal-size batches (1 of 2 correct, 2 of 2
correct): validate returns their mean, which is the full-set accuracy. -/
theorem validate_returns_batch_mean_witness :
    validateTop1 [(1, 2), (2, 2)]
      = (([(1, 2), (2, 2)].map fun b => batchAccuracy b.1 b.2).sum)
          / (([(1, 2), (2, 2)] : List (Nat × Nat)).length : ℚ)
    ∧ validateTop1 [(1, 2), (2, 2)] = fullSetAccuracy [(1, 2), (2, 2)] :=
  validate_returns_batch_mean [(1, 2), (2, 2)] 2 (by decide) (by decide)
    (by decide)

end HFSoftmax
